import Mathlib

/-!
Shallow embedding of `src/src/C/pljava/type/String.c` (pljava's String
type coercer).  Pointers and JNI handles are modelled as natural numbers
drawn from an explicit freshness counter; every operation additionally
returns the list of observable events it performs (allocations, frees,
encoding-conversion calls, JNI calls, catalog reads), so that the claims
about call ordering, ownership and resource accounting can be stated as
properties of the event trace.
-/

namespace PLJavaString

/-- Byte sequences stand for C byte buffers (the logical content of a
null-terminated string or of the payload of a `text` value). -/
abbrev ByteSeq := List Nat

/-- Native pointers are modelled as naturals drawn from a freshness counter. -/
abbrev Ptr := Nat

/-- The PG_UTF8 encoding identifier (the managed runtime's string encoding). -/
def PG_UTF8 : Nat := 6

/-- Observable events emitted by the embedded code. -/
inductive Event where
  | palloc (p : Ptr)
  | pfree (p : Ptr)
  | conv (src ret : Ptr)
  | getUTF (p : Ptr)
  | releaseUTF (p : Ptr)
  | acquireLocal (h : Nat)
  | deleteLocalRef (h : Nat)
  | callToString
  | outputRoutine (d : Nat)
  | inputRoutine (b : ByteSeq)
  | catalogRead (oid : Nat)
deriving DecidableEq, Repr

/-- A managed-runtime (Java) object: either a string with UTF-8 byte
content, or some other object identified by an oracle id. -/
inductive JObj where
  | jstrObj (bytes : ByteSeq)
  | otherObj (id : Nat)
deriving DecidableEq, Repr

/-- The managed runtime's object store; a local handle is an index into it. -/
abbrev JniState := List JObj

/-- Environment of external collaborators: the database's configured text
encoding (`GetDatabaseEncoding`), the byte-level semantics of encoding
conversion, and the behaviour of `toString` on non-string objects
(`none` means the invocation raises a managed-runtime exception). -/
structure PgEnv where
  dbEncoding : Nat
  convert : Nat → Nat → ByteSeq → ByteSeq
  toStringOracle : Nat → Option ByteSeq

/-- Byte-level result of `pg_do_encoding_conversion`: the input bytes are
returned unchanged when no conversion is required (identical encodings or
empty input), otherwise the environment's conversion is applied. -/
def transcodeBytes (env : PgEnv) (se de : Nat) (b : ByteSeq) : ByteSeq :=
  if se = de ∨ b = [] then b else env.convert se de b

/-- Result of a call to the conversion primitive. -/
structure ConvOut where
  ptr : Ptr
  bytes : ByteSeq
  fresh : Nat
  trace : List Event
deriving Repr

/-- Model of PostgreSQL's `pg_do_encoding_conversion`: returns the source
buffer itself when no conversion is required (same encodings, or empty
input), otherwise palloc's a fresh buffer holding the converted bytes.
The emitted `conv src ret` event records input and returned pointer. -/
def pg_do_encoding_conversion (env : PgEnv) (src : Ptr) (bytes : ByteSeq)
    (se de : Nat) (fresh : Nat) : ConvOut :=
  if se = de ∨ bytes = [] then
    ⟨src, bytes, fresh, [Event.conv src src]⟩
  else
    ⟨fresh, env.convert se de bytes, fresh + 1,
      [Event.conv src fresh, Event.palloc fresh]⟩

/-- Result of `JNI_getStringUTFChars`. -/
structure UTFOut where
  ptr : Ptr
  bytes : ByteSeq
  fresh : Nat
  trace : List Event
deriving Repr

/-- UTF-8 content of a handle's object (empty for non-strings; the C code
only ever calls the byte-extraction on string handles). -/
def jstrBytesOf : Option JObj → ByteSeq
  | some (JObj.jstrObj b) => b
  | _ => []

/-- Model of `JNI_getStringUTFChars`: yields a fresh runtime-owned byte
buffer holding the string's UTF-8 content; paired with `releaseUTF`. -/
def JNI_getStringUTFChars (st : JniState) (h : Nat) (fresh : Nat) : UTFOut :=
  { ptr := fresh, bytes := jstrBytesOf st[h]?, fresh := fresh + 1,
    trace := [Event.getUTF fresh] }

/-- Model of `JNI_newStringUTF`: creates a managed string object from a
null-terminated UTF-8 buffer and returns a fresh local handle to it. -/
def JNI_newStringUTF (st : JniState) (bytes : ByteSeq) :
    Nat × JniState × List Event :=
  (st.length, st ++ [JObj.jstrObj bytes], [Event.acquireLocal st.length])

/-- Result of the `toString` invocation through `JNI_callObjectMethod`. -/
structure ToStrOut where
  res : Option Nat
  st : JniState
  trace : List Event

/-- Model of `JNI_callObjectMethod(obj, s_Object_toString)`: on a string
object, Java's `String.toString` returns the object itself, delivered
through a fresh local handle; on another object the oracle decides the
rendered bytes, `none` meaning a pending exception is raised, in which
case no local handle is acquired. -/
def JNI_callObjectMethod (env : PgEnv) (st : JniState) (h : Nat) : ToStrOut :=
  match st[h]? with
  | some (JObj.jstrObj b) =>
      { res := some st.length, st := st ++ [JObj.jstrObj b],
        trace := [Event.callToString, Event.acquireLocal st.length] }
  | some (JObj.otherObj id) =>
      match env.toStringOracle id with
      | some b =>
          { res := some st.length, st := st ++ [JObj.jstrObj b],
            trace := [Event.callToString, Event.acquireLocal st.length] }
      | none => { res := none, st := st, trace := [Event.callToString] }
  | none => { res := none, st := st, trace := [Event.callToString] }

/-- Result of the jstring-producing transcoding helpers. -/
structure JSOut where
  res : Option Nat
  st : JniState
  fresh : Nat
  trace : List Event

/-- Embedding of `String_createJavaString(text* t)`: the length-delimited
entry shape.  The argument models the `text` value as `none` (null
pointer) or `some (p, bytes)` with `p` the address of `VARDATA(t)` and
`bytes` its `VARSIZE - VARHDRSZ` payload.  A zero-length payload returns
the null jstring before any conversion; otherwise the payload is
converted database-encoding → UTF-8 and wrapped via `JNI_newStringUTF`,
and the converted buffer is freed only when it differs from the source. -/
def String_createJavaString (env : PgEnv) (t : Option (Ptr × ByteSeq))
    (st : JniState) (fresh : Nat) : JSOut :=
  match t with
  | none => ⟨none, st, fresh, []⟩
  | some (p, src) =>
      if src.length = 0 then ⟨none, st, fresh, []⟩
      else
        let c := pg_do_encoding_conversion env p src env.dbEncoding PG_UTF8 fresh
        let (h, st1, tr) := JNI_newStringUTF st c.bytes
        ⟨some h, st1, c.fresh,
          c.trace ++ tr ++ (if c.ptr = p then [] else [Event.pfree c.ptr])⟩

/-- Embedding of `String_createJavaStringFromNTS(const char* cp)`: the
null-terminated entry shape.  `none` models the null pointer; `some
(p, bytes)` a null-terminated buffer at `p` whose content (`strlen`
many bytes) is `bytes`.  Note: unlike the length-delimited shape there
is no zero-length short-circuit; a non-null empty string still goes
through the conversion primitive and `JNI_newStringUTF`. -/
def String_createJavaStringFromNTS (env : PgEnv) (cp : Option (Ptr × ByteSeq))
    (st : JniState) (fresh : Nat) : JSOut :=
  match cp with
  | none => ⟨none, st, fresh, []⟩
  | some (p, src) =>
      let c := pg_do_encoding_conversion env p src env.dbEncoding PG_UTF8 fresh
      let (h, st1, tr) := JNI_newStringUTF st c.bytes
      ⟨some h, st1, c.fresh,
        c.trace ++ tr ++ (if c.ptr = p then [] else [Event.pfree c.ptr])⟩

/-- Result of `String_createText`. -/
structure TextOut where
  res : Option (Ptr × ByteSeq)
  st : JniState
  fresh : Nat
  trace : List Event

/-- Embedding of `String_createText(jstring javaString)`: extracts the
UTF-8 bytes, converts UTF-8 → database encoding, pallocs a fresh `text`
structure and copies the converted bytes into it, frees the converted
buffer only when it differs from the extracted one, and releases the
extracted buffer. -/
def String_createText (env : PgEnv) (javaString : Option Nat)
    (st : JniState) (fresh : Nat) : TextOut :=
  match javaString with
  | none => ⟨none, st, fresh, []⟩
  | some h =>
      let u := JNI_getStringUTFChars st h fresh
      let c := pg_do_encoding_conversion env u.ptr u.bytes PG_UTF8 env.dbEncoding u.fresh
      ⟨some (c.fresh, c.bytes), st, c.fresh + 1,
        u.trace ++ c.trace ++ [Event.palloc c.fresh]
          ++ (if c.ptr = u.ptr then [] else [Event.pfree c.ptr])
          ++ [Event.releaseUTF u.ptr]⟩

/-- Result of `String_createNTS`. -/
structure NTSOut where
  res : Option (Ptr × ByteSeq)
  st : JniState
  fresh : Nat
  trace : List Event

/-- Embedding of `String_createNTS(jstring javaString)`: extracts the
UTF-8 bytes and converts UTF-8 → database encoding; when the conversion
primitive returned its input buffer, the result is `pstrdup`ed so that
the caller always owns the returned buffer; the extracted buffer is
then released. -/
def String_createNTS (env : PgEnv) (javaString : Option Nat)
    (st : JniState) (fresh : Nat) : NTSOut :=
  match javaString with
  | none => ⟨none, st, fresh, []⟩
  | some h =>
      let u := JNI_getStringUTFChars st h fresh
      let c := pg_do_encoding_conversion env u.ptr u.bytes PG_UTF8 env.dbEncoding u.fresh
      if c.ptr = u.ptr then
        ⟨some (c.fresh, c.bytes), st, c.fresh + 1,
          u.trace ++ c.trace ++ [Event.palloc c.fresh, Event.releaseUTF u.ptr]⟩
      else
        ⟨some (c.ptr, c.bytes), st, c.fresh,
          u.trace ++ c.trace ++ [Event.releaseUTF u.ptr]⟩

/-- Result of `String_appendJavaString`. -/
structure AppendOut where
  buf : ByteSeq
  fresh : Nat
  trace : List Event

/-- Embedding of `String_appendJavaString(StringInfoData* buf, jstring)`:
the `StringInfo` is modelled by its byte content; the converted bytes
are appended and the converted buffer freed only when it differs from
the extracted one. -/
def String_appendJavaString (env : PgEnv) (buf : ByteSeq)
    (javaString : Option Nat) (st : JniState) (fresh : Nat) : AppendOut :=
  match javaString with
  | none => ⟨buf, fresh, []⟩
  | some h =>
      let u := JNI_getStringUTFChars st h fresh
      let c := pg_do_encoding_conversion env u.ptr u.bytes PG_UTF8 env.dbEncoding u.fresh
      ⟨buf ++ c.bytes, c.fresh,
        u.trace ++ c.trace
          ++ (if c.ptr = u.ptr then [] else [Event.pfree c.ptr])
          ++ [Event.releaseUTF u.ptr]⟩

/-- Payload of `struct String_`: the per-type descriptor state filled in
by `String_create` (`fmgr_info_cxt` copies of the catalog's output and
input routine, plus the element type id).  The routines are modelled by
their byte-level semantics: `textOutput` renders a Datum as a
null-terminated byte string, `textInput` parses one back to a Datum. -/
structure String_ where
  textOutput : Nat → ByteSeq
  textInput : ByteSeq → Nat
  elementType : Nat

/-- Catalog row of a database type (`Form_pg_type`): its output and input
routine and element type id. -/
structure FormPgType where
  typoutput : Nat → ByteSeq
  typinput : ByteSeq → Nat
  typelem : Nat

/-- Embedding of `_String_canReplaceType(Type self, Type type)`: the
String kind can stand in for any type, unconditionally. -/
def _String_canReplaceType (self : Nat) (type : Nat) : Bool :=
  true

/-- Result of `_String_coerceDatum`. -/
structure DatumOut where
  res : Option Nat
  st : JniState
  fresh : Nat
  trace : List Event

/-- Embedding of `_String_coerceDatum(Type self, Datum arg)`: invokes the
stored output routine on the argument unconditionally (there is no
null-Datum check in this function), obtaining a palloc'd
null-terminated rendering, wraps it through
`String_createJavaStringFromNTS`, and frees the rendering. -/
def _String_coerceDatum (env : PgEnv) (self : String_) (arg : Nat)
    (st : JniState) (fresh : Nat) : DatumOut :=
  let bytes := self.textOutput arg
  let tmpPtr := fresh
  let j := String_createJavaStringFromNTS env (some (tmpPtr, bytes)) st (fresh + 1)
  ⟨j.res, j.st, j.fresh,
    Event.outputRoutine arg :: Event.palloc tmpPtr :: (j.trace ++ [Event.pfree tmpPtr])⟩

/-- Result of `_String_coerceObject`; `exc` is the managed runtime's
pending-exception flag at return. -/
structure ObjOut where
  ret : Nat
  st : JniState
  fresh : Nat
  trace : List Event
  exc : Bool

/-- Embedding of `_String_coerceObject(Type self, jobject jstr)`: null
handles return Datum 0 immediately; otherwise `toString` is invoked
through `JNI_callObjectMethod` (unconditionally, with no
is-already-a-string test), a pending exception makes the function
return 0 with the exception still pending, and otherwise the result
string is transcoded by `String_createNTS`, its local handle deleted,
the stored input routine applied, and the transcoded buffer freed. -/
def _String_coerceObject (env : PgEnv) (self : String_) (jstr : Option Nat)
    (st : JniState) (fresh : Nat) : ObjOut :=
  match jstr with
  | none => ⟨0, st, fresh, [], false⟩
  | some h =>
      let tsr := JNI_callObjectMethod env st h
      match tsr.res with
      | none => ⟨0, tsr.st, fresh, tsr.trace, true⟩
      | some h2 =>
          let n := String_createNTS env (some h2) tsr.st fresh
          match n.res with
          | none => ⟨0, n.st, n.fresh, tsr.trace ++ n.trace, true⟩
          | some (p, b) =>
              ⟨self.textInput b, n.st, n.fresh,
                tsr.trace ++ n.trace
                  ++ [Event.deleteLocalRef h2, Event.inputRoutine b, Event.pfree p],
                false⟩

/-- Association-list lookup keyed by Oid, modelling `HashMap_getByOid`
resolution order (the most recently put binding wins). -/
def lookupOid {α : Type} : List (Nat × α) → Nat → Option α
  | [], _ => none
  | (k, v) :: rest, oid => if k = oid then some v else lookupOid rest oid

/-- State of the caching subsystem: the `s_cache` HashMap (Oid ↦
descriptor pointer), the heap of allocated descriptors (pointer ↦
payload), the pg-type factory registry (Oid ↦ factory id), and the
allocation counter. -/
structure CacheWorld where
  cache : List (Nat × Nat)
  heap : List (Nat × String_)
  registry : List (Nat × Nat)
  nextPtr : Nat

/-- Embedding of `HashMap_getByOid(s_cache, typeId)`. -/
def HashMap_getByOid (cache : List (Nat × Nat)) (oid : Nat) : Option Nat :=
  lookupOid cache oid

/-- Embedding of `HashMap_putByOid(s_cache, typeId, v)`: the new binding
shadows any earlier one. -/
def HashMap_putByOid (cache : List (Nat × Nat)) (oid v : Nat) : List (Nat × Nat) :=
  (oid, v) :: cache

/-- Embedding of `String_create(cls, typeId, pgType)`:
`TypeClass_allocInstance` yields a fresh descriptor pointer and the
payload is initialized from the catalog row (`fmgr_info_cxt` twice plus
`typelem`). -/
def String_create (w : CacheWorld) (typeId : Nat) (pgType : FormPgType) :
    Nat × CacheWorld :=
  (w.nextPtr,
   { w with
     heap := (w.nextPtr, ⟨pgType.typoutput, pgType.typinput, pgType.typelem⟩) :: w.heap,
     nextPtr := w.nextPtr + 1 })

/-- Catalog collaborator: `PgObject_getValidTuple(TYPEOID, typeId, ..)`
resolving an Oid to its `Form_pg_type` row (assumed valid here; the
invalid-Oid error path is out of the claims' scope). -/
structure Catalog where
  lookupType : Nat → FormPgType

/-- Embedding of `StringClass_obtain(self, typeId)`: returns the cached
descriptor when present; otherwise reads the catalog row (emitting a
`catalogRead` event), constructs a descriptor and caches it. -/
def StringClass_obtain (cat : Catalog) (w : CacheWorld) (typeId : Nat) :
    Nat × CacheWorld × List Event :=
  match HashMap_getByOid w.cache typeId with
  | some p => (p, w, [])
  | none =>
      let pg := cat.lookupType typeId
      let pw := String_create w typeId pg
      (pw.1, { pw.2 with cache := HashMap_putByOid pw.2.cache typeId pw.1 },
        [Event.catalogRead typeId])

/-- Embedding of `String_obtain(typeId)`: delegates to
`StringClass_obtain` on the shared `s_StringClass`. -/
def String_obtain (cat : Catalog) (w : CacheWorld) (typeId : Nat) :
    Nat × CacheWorld × List Event :=
  StringClass_obtain cat w typeId

/-- Embedding of `String_fromPgType(typeId, pgType)`: like
`StringClass_obtain` but the catalog row is supplied by the caller, so
no catalog read happens; a cached descriptor is returned as-is and the
supplied row is then ignored. -/
def String_fromPgType (w : CacheWorld) (typeId : Nat) (pgType : FormPgType) :
    Nat × CacheWorld × List Event :=
  match HashMap_getByOid w.cache typeId with
  | some p => (p, w, [])
  | none =>
      let pw := String_create w typeId pgType
      (pw.1, { pw.2 with cache := HashMap_putByOid pw.2.cache typeId pw.1 }, [])

/-- Modelled from the spec: `Type_registerPgType` (the registry component
of section 4.3, whose code lives outside the given source file) inserts
unconditionally, the new binding shadowing any earlier factory for the
same Oid; it does not touch the descriptor cache. -/
def Type_registerPgType (w : CacheWorld) (oid fid : Nat) : CacheWorld :=
  { w with registry := (oid, fid) :: w.registry }

/-- Concrete environment for evaluation: LATIN1-like database encoding
(distinct from PG_UTF8), identity byte conversion, a `toString` oracle
that renders every non-string object as the empty string. -/
def env0 : PgEnv :=
  ⟨8, fun _ _ b => b, fun _ => some []⟩

/-- Concrete environment whose `toString` oracle always raises. -/
def envExc : PgEnv :=
  ⟨8, fun _ _ b => b, fun _ => none⟩

/-- Concrete descriptor whose output routine renders every Datum as
"hello" and whose input routine parses "hello" back to Datum 42. -/
def descHello : String_ :=
  ⟨fun _ => [104, 101, 108, 108, 111],
   fun b => if b = [104, 101, 108, 108, 111] then 42 else 0, 0⟩

/-- Concrete descriptor whose output routine renders every Datum as the
empty string. -/
def descEmpty : String_ :=
  ⟨fun _ => [], fun _ => 5, 0⟩

/-- Count of local handles acquired in a trace. -/
def countAcquired (tr : List Event) : Nat :=
  tr.countP fun e => match e with | Event.acquireLocal _ => true | _ => false

/-- Count of local handles released in a trace. -/
def countReleased (tr : List Event) : Nat :=
  tr.countP fun e => match e with | Event.deleteLocalRef _ => true | _ => false

theorem getElem_append_singleton {α : Type} (l : List α) (a : α) :
    (l ++ [a])[l.length]? = some a := by
  induction l with
  | nil => rfl
  | cons x xs ih => simp [ih]

theorem getElem_append_pair {α : Type} (l : List α) (a b : α) :
    (l ++ [a] ++ [b])[l.length + 1]? = some b := by
  have h : (l ++ [a] ++ [b]) = (l ++ [a]) ++ [b] := by simp
  have h2 := getElem_append_singleton (l ++ [a]) b
  simpa [List.length_append] using h2

theorem pgconv_bytes (env : PgEnv) (src : Ptr) (bytes : ByteSeq) (se de fresh : Nat) :
    (pg_do_encoding_conversion env src bytes se de fresh).bytes =
      transcodeBytes env se de bytes := by
  unfold pg_do_encoding_conversion transcodeBytes
  split <;> rfl

theorem createNTS_run (env : PgEnv) (st : JniState) (h fresh : Nat) :
    String_createNTS env (some h) st fresh =
      ⟨some (fresh + 1, transcodeBytes env PG_UTF8 env.dbEncoding (jstrBytesOf st[h]?)),
        st, fresh + 2,
        [Event.getUTF fresh,
         Event.conv fresh
           (if PG_UTF8 = env.dbEncoding ∨ jstrBytesOf st[h]? = [] then fresh else fresh + 1),
         Event.palloc (fresh + 1), Event.releaseUTF fresh]⟩ := by
  unfold String_createNTS JNI_getStringUTFChars pg_do_encoding_conversion transcodeBytes
  by_cases hc : PG_UTF8 = env.dbEncoding ∨ jstrBytesOf st[h]? = []
  · simp [hc]
  · simp [hc]

theorem coerceDatum_res_st (env : PgEnv) (self : String_) (arg : Nat)
    (st : JniState) (fresh : Nat) :
    (_String_coerceDatum env self arg st fresh).res = some st.length ∧
    (_String_coerceDatum env self arg st fresh).st =
      st ++ [JObj.jstrObj (transcodeBytes env env.dbEncoding PG_UTF8 (self.textOutput arg))] := by
  unfold _String_coerceDatum String_createJavaStringFromNTS JNI_newStringUTF
  constructor <;> simp [pgconv_bytes]

theorem coerceObject_on_string (env : PgEnv) (self : String_) (st : JniState)
    (fresh h : Nat) (b : ByteSeq) (hh : st[h]? = some (JObj.jstrObj b)) :
    (_String_coerceObject env self (some h) st fresh).ret =
      self.textInput (transcodeBytes env PG_UTF8 env.dbEncoding b) ∧
    (_String_coerceObject env self (some h) st fresh).exc = false := by
  have htsr : JNI_callObjectMethod env st h =
      ⟨some st.length, st ++ [JObj.jstrObj b],
       [Event.callToString, Event.acquireLocal st.length]⟩ := by
    simp [JNI_callObjectMethod, hh]
  have hb : jstrBytesOf (st ++ [JObj.jstrObj b])[st.length]? = b := by
    rw [getElem_append_singleton]; rfl
  simp [_String_coerceObject, htsr, createNTS_run, hb, jstrBytesOf]

/-- C9: for every descriptor of the String kind and every candidate type,
`canReplaceType` returns true — String-backed coercion is the universal
fallback. -/
theorem canReplaceType_universal (self other : Nat) :
    _String_canReplaceType self other = true :=
  rfl

/-- C6: `_String_coerceObject` applied to the null managed handle returns
the database "no value" sentinel (Datum 0) immediately, with an empty
event trace — so neither the `toString` capability nor the stored input
routine is invoked. -/
theorem coerceObject_null_shortcircuit (env : PgEnv) (self : String_)
    (st : JniState) (fresh : Nat) :
    (_String_coerceObject env self none st fresh).ret = 0 ∧
    Event.callToString ∉ (_String_coerceObject env self none st fresh).trace ∧
    ∀ b, Event.inputRoutine b ∉ (_String_coerceObject env self none st fresh).trace := by
  refine ⟨rfl, ?_, ?_⟩ <;> simp [_String_coerceObject]

/-- C5 counterexample: with a descriptor whose output routine renders the
empty string, `_String_coerceDatum` returns a managed string object,
not the "no object" sentinel; and on the Datum-0 "no value" input the
stored output routine is invoked anyway. -/
theorem coerceDatum_no_sentinel_counterexample :
    (_String_coerceDatum env0 descEmpty 7 [] 0).res ≠ none ∧
    Event.outputRoutine 0 ∈ (_String_coerceDatum env0 descEmpty 0 [] 0).trace := by
  decide

/-- C5 amended: `_String_coerceDatum` invokes the stored output routine
unconditionally (even for the "no value" native input) and always
returns a managed string object — including an empty managed string when
the rendered text has zero length; it never returns the "no object"
sentinel. -/
theorem coerceDatum_always_invokes_output (env : PgEnv) (self : String_)
    (arg : Nat) (st : JniState) (fresh : Nat) :
    Event.outputRoutine arg ∈ (_String_coerceDatum env self arg st fresh).trace ∧
    (_String_coerceDatum env self arg st fresh).res ≠ none := by
  constructor
  · simp [_String_coerceDatum]
  · have hres := (coerceDatum_res_st env self arg st fresh).1
    simp [hres]

/-- C7 counterexample: the null-terminated entry shape applied to a
non-null zero-length string does invoke the encoding-conversion
primitive (a `conv` event appears) and returns a managed string, not the
"no value" result. -/
theorem createJavaStringFromNTS_zero_length_converts :
    (String_createJavaStringFromNTS env0 (some (0, [])) [] 1).res ≠ none ∧
    Event.conv 0 0 ∈ (String_createJavaStringFromNTS env0 (some (0, [])) [] 1).trace := by
  decide

/-- C7 amended: the length-delimited shape (`String_createJavaString`)
short-circuits a zero-length payload (and a null input) to the "no
value" result with an empty trace — no conversion call, no allocation;
the null-terminated shape (`String_createJavaStringFromNTS`)
short-circuits only the null pointer: a non-null zero-length string is
passed to the conversion primitive and yields an empty managed string. -/
theorem transcoder_zero_length (env : PgEnv) (p : Ptr) (st : JniState) (fresh : Nat) :
    String_createJavaString env (some (p, [])) st fresh = ⟨none, st, fresh, []⟩ ∧
    String_createJavaString env none st fresh = ⟨none, st, fresh, []⟩ ∧
    String_createJavaStringFromNTS env none st fresh = ⟨none, st, fresh, []⟩ ∧
    (String_createJavaStringFromNTS env (some (p, [])) st fresh).res ≠ none ∧
    Event.conv p p ∈ (String_createJavaStringFromNTS env (some (p, [])) st fresh).trace := by
  refine ⟨rfl, rfl, rfl, ?_, ?_⟩ <;>
    simp [String_createJavaStringFromNTS, pg_do_encoding_conversion, JNI_newStringUTF]

/-- C8 counterexample: a non-null handle that is already a managed
string still has the stringify (`toString`) capability invoked on it by
`_String_coerceObject` — the `callToString` event appears in the trace. -/
theorem coerceObject_string_still_stringified :
    Event.callToString ∈
      (_String_coerceObject env0 descHello (some 0) [JObj.jstrObj [104]] 0).trace := by
  decide

/-- C8 amended: `_String_coerceObject` invokes the stringify capability
on every non-null managed handle, whether or not it is already a string
(there is no is-a-string test); for a handle that is a string the
invocation returns the same string content, which then reaches the
stored input routine transcoded. -/
theorem coerceObject_always_stringifies (env : PgEnv) (self : String_)
    (st : JniState) (fresh h : Nat) (b : ByteSeq)
    (hh : st[h]? = some (JObj.jstrObj b)) :
    Event.callToString ∈ (_String_coerceObject env self (some h) st fresh).trace ∧
    Event.inputRoutine (transcodeBytes env PG_UTF8 env.dbEncoding b) ∈
      (_String_coerceObject env self (some h) st fresh).trace := by
  have htsr : JNI_callObjectMethod env st h =
      ⟨some st.length, st ++ [JObj.jstrObj b],
       [Event.callToString, Event.acquireLocal st.length]⟩ := by
    simp [JNI_callObjectMethod, hh]
  have hb : jstrBytesOf (st ++ [JObj.jstrObj b])[st.length]? = b := by
    rw [getElem_append_singleton]; rfl
  simp [_String_coerceObject, htsr, createNTS_run, hb, jstrBytesOf]

/-- C8 amended, witness at a concrete already-string handle. -/
theorem coerceObject_always_stringifies_witness :
    Event.callToString ∈
      (_String_coerceObject env0 descHello (some 0) [JObj.jstrObj [104, 105]] 3).trace ∧
    Event.inputRoutine (transcodeBytes env0 PG_UTF8 env0.dbEncoding [104, 105]) ∈
      (_String_coerceObject env0 descHello (some 0) [JObj.jstrObj [104, 105]] 3).trace :=
  coerceObject_always_stringifies env0 descHello [JObj.jstrObj [104, 105]] 3 0 [104, 105]
    (by decide)

/-- C4: when the `toString` invocation raises a managed-runtime
exception, `_String_coerceObject` returns Datum 0 with the exception
still pending (the failure is propagated, not swallowed), the trace
contains neither an input-routine call nor an encoding-conversion call
(the coercion aborts before either), and the count of managed-runtime
local handles acquired during the call equals the count released (no
handle leak on the error path; per the JNI contract a call with a
pending exception yields no result handle). -/
theorem coerceObject_exception_aborts (env : PgEnv) (self : String_)
    (st : JniState) (fresh h oid : Nat)
    (hh : st[h]? = some (JObj.otherObj oid))
    (hex : env.toStringOracle oid = none) :
    (_String_coerceObject env self (some h) st fresh).ret = 0 ∧
    (_String_coerceObject env self (some h) st fresh).exc = true ∧
    (∀ b, Event.inputRoutine b ∉ (_String_coerceObject env self (some h) st fresh).trace) ∧
    (∀ s r, Event.conv s r ∉ (_String_coerceObject env self (some h) st fresh).trace) ∧
    countAcquired (_String_coerceObject env self (some h) st fresh).trace =
      countReleased (_String_coerceObject env self (some h) st fresh).trace := by
  have htsr : JNI_callObjectMethod env st h =
      ⟨none, st, [Event.callToString]⟩ := by
    simp [JNI_callObjectMethod, hh, hex]
  refine ⟨?_, ?_, ?_, ?_, ?_⟩ <;>
    simp [_String_coerceObject, htsr, countAcquired, countReleased]

/-- C4, witness at a concrete non-string handle whose stringify raises. -/
theorem coerceObject_exception_aborts_witness :
    (_String_coerceObject envExc descHello (some 0) [JObj.otherObj 0] 5).ret = 0 ∧
    (_String_coerceObject envExc descHello (some 0) [JObj.otherObj 0] 5).exc = true :=
  ⟨(coerceObject_exception_aborts envExc descHello [JObj.otherObj 0] 5 0 0 (by decide) rfl).1,
   (coerceObject_exception_aborts envExc descHello [JObj.otherObj 0] 5 0 0 (by decide) rfl).2.1⟩

/-- Concrete catalog for evaluation. -/
def cat0 : Catalog :=
  ⟨fun _ => ⟨fun _ => [104], fun _ => 3, 11⟩⟩

/-- Empty initial cache world (state right after `String_initialize`). -/
def w0 : CacheWorld :=
  ⟨[], [], [], 0⟩

/-- C1: on a cache miss, `StringClass_obtain` reads the catalog exactly
once, constructs a fresh descriptor whose payload comes from the catalog
row, and stores it; every later resolution of the same Oid — through
`StringClass_obtain`, `String_fromPgType` (whatever catalog row its
caller supplies), or `String_obtain` even after a factory
re-registration for that Oid — returns the pointer-identical descriptor
with no further catalog read and no state change. -/
theorem string_identity_caching (cat : Catalog) (w : CacheWorld) (t fid : Nat)
    (pg : FormPgType) (hmiss : HashMap_getByOid w.cache t = none) :
    (StringClass_obtain cat w t).2.2 = [Event.catalogRead t] ∧
    (StringClass_obtain cat w t).1 = w.nextPtr ∧
    lookupOid (StringClass_obtain cat w t).2.1.heap (StringClass_obtain cat w t).1 =
      some ⟨(cat.lookupType t).typoutput, (cat.lookupType t).typinput,
            (cat.lookupType t).typelem⟩ ∧
    HashMap_getByOid (StringClass_obtain cat w t).2.1.cache t =
      some (StringClass_obtain cat w t).1 ∧
    StringClass_obtain cat (StringClass_obtain cat w t).2.1 t =
      ((StringClass_obtain cat w t).1, (StringClass_obtain cat w t).2.1, []) ∧
    String_fromPgType (StringClass_obtain cat w t).2.1 t pg =
      ((StringClass_obtain cat w t).1, (StringClass_obtain cat w t).2.1, []) ∧
    String_obtain cat (Type_registerPgType (StringClass_obtain cat w t).2.1 t fid) t =
      ((StringClass_obtain cat w t).1,
       Type_registerPgType (StringClass_obtain cat w t).2.1 t fid, []) := by
  have hmiss' : lookupOid w.cache t = none := hmiss
  refine ⟨?_, ?_, ?_, ?_, ?_, ?_, ?_⟩ <;>
    simp [StringClass_obtain, String_obtain, String_fromPgType, Type_registerPgType,
          HashMap_getByOid, lookupOid, String_create, HashMap_putByOid, hmiss']

/-- C1, witness: a fresh world resolves Oid 25 twice to the identical
pointer with no second catalog read. -/
theorem string_identity_caching_witness :
    HashMap_getByOid w0.cache 25 = none ∧
    StringClass_obtain cat0 (StringClass_obtain cat0 w0 25).2.1 25 =
      ((StringClass_obtain cat0 w0 25).1, (StringClass_obtain cat0 w0 25).2.1, []) :=
  ⟨rfl, (string_identity_caching cat0 w0 25 9 ⟨fun _ => [], fun _ => 0, 0⟩ rfl).2.2.2.2.1⟩

/-- C10: `String_createNTS` always returns an owned, freshly allocated
buffer — never the runtime-borrowed UTF-8 buffer (at pointer `fresh`),
duplicating the bytes when the conversion primitive aliases its input —
so `_String_coerceObject` may and does free the returned buffer
unconditionally, while never freeing the borrowed buffer. -/
theorem createNTS_owned_copy (env : PgEnv) (self : String_) (st : JniState)
    (fresh h : Nat) (b : ByteSeq) (hh : st[h]? = some (JObj.jstrObj b)) :
    (String_createNTS env (some h) st fresh).res =
      some (fresh + 1, transcodeBytes env PG_UTF8 env.dbEncoding b) ∧
    Event.palloc (fresh + 1) ∈ (String_createNTS env (some h) st fresh).trace ∧
    (∀ bs, (String_createNTS env (some h) st fresh).res ≠ some (fresh, bs)) ∧
    Event.pfree (fresh + 1) ∈ (_String_coerceObject env self (some h) st fresh).trace ∧
    Event.pfree fresh ∉ (_String_coerceObject env self (some h) st fresh).trace := by
  have htsr : JNI_callObjectMethod env st h =
      ⟨some st.length, st ++ [JObj.jstrObj b],
       [Event.callToString, Event.acquireLocal st.length]⟩ := by
    simp [JNI_callObjectMethod, hh]
  have hb : jstrBytesOf (st ++ [JObj.jstrObj b])[st.length]? = b := by
    rw [getElem_append_singleton]; rfl
  refine ⟨?_, ?_, ?_, ?_, ?_⟩ <;>
    simp [_String_coerceObject, htsr, createNTS_run, hb, hh, jstrBytesOf]

/-- C10, witness at a concrete string handle. -/
theorem createNTS_owned_copy_witness :
    (String_createNTS env0 (some 0) [JObj.jstrObj [104]] 0).res =
      some (1, transcodeBytes env0 PG_UTF8 env0.dbEncoding [104]) ∧
    Event.pfree 1 ∈ (_String_coerceObject env0 descHello (some 0) [JObj.jstrObj [104]] 0).trace :=
  ⟨(createNTS_owned_copy env0 descHello [JObj.jstrObj [104]] 0 0 [104] (by decide)).1,
   (createNTS_owned_copy env0 descHello [JObj.jstrObj [104]] 0 0 [104] (by decide)).2.2.2.1⟩

/-- C3: under the hypotheses that the stored input routine inverts the
stored output routine at the given native value and that the two
encoding conversions are mutually inverse on its rendered text,
`_String_coerceDatum` followed by `_String_coerceObject` produces a
native value whose output routine renders the original text
byte-for-byte, with no exception pending. -/
theorem string_roundtrip (env : PgEnv) (self : String_) (arg : Nat)
    (st : JniState) (fresh : Nat)
    (Hio : self.textInput (self.textOutput arg) = arg)
    (Henc : transcodeBytes env PG_UTF8 env.dbEncoding
        (transcodeBytes env env.dbEncoding PG_UTF8 (self.textOutput arg)) =
      self.textOutput arg) :
    (_String_coerceDatum env self arg st fresh).res ≠ none ∧
    self.textOutput
        (_String_coerceObject env self (_String_coerceDatum env self arg st fresh).res
          (_String_coerceDatum env self arg st fresh).st
          (_String_coerceDatum env self arg st fresh).fresh).ret =
      self.textOutput arg ∧
    (_String_coerceObject env self (_String_coerceDatum env self arg st fresh).res
        (_String_coerceDatum env self arg st fresh).st
        (_String_coerceDatum env self arg st fresh).fresh).exc = false := by
  obtain ⟨hres, hst⟩ := coerceDatum_res_st env self arg st fresh
  have hh : (_String_coerceDatum env self arg st fresh).st[st.length]? =
      some (JObj.jstrObj (transcodeBytes env env.dbEncoding PG_UTF8 (self.textOutput arg))) := by
    rw [hst]; exact getElem_append_singleton st _
  obtain ⟨hret, hexc⟩ := coerceObject_on_string env self
    (_String_coerceDatum env self arg st fresh).st
    (_String_coerceDatum env self arg st fresh).fresh st.length _ hh
  rw [hres]
  refine ⟨by simp, ?_, hexc⟩
  rw [hret, Henc, Hio]

/-- C3, witness: the ASCII text "hello" (and Datum 42) round-trips under
the identity encoding conversion. -/
theorem string_roundtrip_witness :
    (_String_coerceDatum env0 descHello 42 [] 0).res ≠ none ∧
    descHello.textOutput
        (_String_coerceObject env0 descHello (_String_coerceDatum env0 descHello 42 [] 0).res
          (_String_coerceDatum env0 descHello 42 [] 0).st
          (_String_coerceDatum env0 descHello 42 [] 0).fresh).ret =
      descHello.textOutput 42 ∧
    (_String_coerceObject env0 descHello (_String_coerceDatum env0 descHello 42 [] 0).res
        (_String_coerceDatum env0 descHello 42 [] 0).st
        (_String_coerceDatum env0 descHello 42 [] 0).fresh).exc = false :=
  string_roundtrip env0 descHello 42 [] 0 (by decide) (by decide)

/-- C2: in each transcoding helper — `String_createJavaString`,
`String_createJavaStringFromNTS`, `String_createText`,
`String_appendJavaString` — every call of the conversion primitive
(recorded as a `conv s r` event with input pointer `s` and returned
pointer `r`) is followed by a `pfree` of the returned buffer exactly
when the returned pointer differs from the input pointer; a returned
buffer identical to the input is never freed by the helper.  The
hypothesis `p < fresh` states that the caller's input buffer is a valid
pointer below the allocation watermark. -/
theorem transcode_alias_safe (env : PgEnv) (p : Ptr) (bytes buf : ByteSeq)
    (st : JniState) (fresh h : Nat) (hp : p < fresh) :
    (∀ s r, Event.conv s r ∈ (String_createJavaString env (some (p, bytes)) st fresh).trace →
      (Event.pfree r ∈ (String_createJavaString env (some (p, bytes)) st fresh).trace ↔
        r ≠ s)) ∧
    (∀ s r, Event.conv s r ∈ (String_createJavaStringFromNTS env (some (p, bytes)) st fresh).trace →
      (Event.pfree r ∈ (String_createJavaStringFromNTS env (some (p, bytes)) st fresh).trace ↔
        r ≠ s)) ∧
    (∀ s r, Event.conv s r ∈ (String_createText env (some h) st fresh).trace →
      (Event.pfree r ∈ (String_createText env (some h) st fresh).trace ↔ r ≠ s)) ∧
    (∀ s r, Event.conv s r ∈ (String_appendJavaString env buf (some h) st fresh).trace →
      (Event.pfree r ∈ (String_appendJavaString env buf (some h) st fresh).trace ↔ r ≠ s)) := by
  have hne : fresh ≠ p := Nat.ne_of_gt hp
  refine ⟨?_, ?_, ?_, ?_⟩
  · intro s r hmem
    by_cases hb : bytes.length = 0
    · simp [String_createJavaString, hb] at hmem
    · by_cases hc : env.dbEncoding = PG_UTF8 ∨ bytes = []
      · simp [String_createJavaString, hb, pg_do_encoding_conversion, hc,
              JNI_newStringUTF] at hmem ⊢
        simp [hmem.1, hmem.2]
      · simp [String_createJavaString, hb, pg_do_encoding_conversion, hc,
              JNI_newStringUTF, hne] at hmem ⊢
        simp [hmem.1, hmem.2, hne]
  · intro s r hmem
    by_cases hc : env.dbEncoding = PG_UTF8 ∨ bytes = []
    · simp [String_createJavaStringFromNTS, pg_do_encoding_conversion, hc,
            JNI_newStringUTF] at hmem ⊢
      simp [hmem.1, hmem.2]
    · simp [String_createJavaStringFromNTS, pg_do_encoding_conversion, hc,
            JNI_newStringUTF, hne] at hmem ⊢
      simp [hmem.1, hmem.2, hne]
  · intro s r hmem
    by_cases hc : PG_UTF8 = env.dbEncoding ∨ jstrBytesOf st[h]? = []
    · simp [String_createText, JNI_getStringUTFChars, pg_do_encoding_conversion,
            hc] at hmem ⊢
      simp [hmem.1, hmem.2]
    · simp [String_createText, JNI_getStringUTFChars, pg_do_encoding_conversion,
            hc] at hmem ⊢
      simp [hmem.1, hmem.2]
  · intro s r hmem
    by_cases hc : PG_UTF8 = env.dbEncoding ∨ jstrBytesOf st[h]? = []
    · simp [String_appendJavaString, JNI_getStringUTFChars, pg_do_encoding_conversion,
            hc] at hmem ⊢
      simp [hmem.1, hmem.2]
    · simp [String_appendJavaString, JNI_getStringUTFChars, pg_do_encoding_conversion,
            hc] at hmem ⊢
      simp [hmem.1, hmem.2]

/-- C2, witness: with distinct encodings the conversion returns a fresh
buffer (pointer 1 ≠ input pointer 0) and `String_createJavaString` does
free it. -/
theorem transcode_alias_safe_witness :
    Event.pfree 1 ∈ (String_createJavaString env0 (some (0, [1])) [] 1).trace :=
  ((transcode_alias_safe env0 0 [1] [] [] 1 0 (by decide)).1 0 1 (by decide)).mpr (by decide)

end PLJavaString
